import Mathlib

/-!
Verification of the RadiaCode client driver (C++ sources: BytesBuffer.cpp,
BluetoothTransport.cpp, RadiaCode.cpp, Decoders.cpp, RadiaCodeTypes.cpp)
against its natural-language specification.

The C++ code is shallowly embedded: machine integers become `Nat`/`Int` with
explicit `% 2 ^ w` where wrap-around matters (the ESP32 target has 32-bit
`size_t`/`int`); `uint8_t` array cells are `Nat` values that are `< 256` on
every state the program can construct (a well-formedness hypothesis where a
theorem needs it); IEEE-754 `float` fields that the code only moves around by
`memcpy` reinterpretation are kept as their 32-bit bit patterns (the
reinterpretation is the identity on bits and no float arithmetic is modelled).
-/

namespace RadiaCodeProof

/-- Two's-complement reading of the low `w` bits of a natural number, as done
by `static_cast<int8_t>` / accumulation into `int16_t` / `int32_t` in the C++
code. -/
def toSigned (w n : Nat) : Int :=
  if n % 2 ^ w < 2 ^ (w - 1) then ((n % 2 ^ w : Nat) : Int)
  else ((n % 2 ^ w : Nat) : Int) - 2 ^ w

/-- Little-endian value of two bytes. -/
def leVal2 (b0 b1 : Nat) : Nat := b0 + 256 * b1

/-- Little-endian value of four bytes. -/
def leVal4 (b0 b1 b2 b3 : Nat) : Nat :=
  b0 + 256 * b1 + 65536 * b2 + 16777216 * b3

/-! ## BytesBuffer (BytesBuffer.h / BytesBuffer.cpp)

`_fixed_data` is a fixed `uint8_t[MAX_BUFFER_SIZE]` backing store; it is
modelled as a total function `Nat → Nat` (cells never written read as 0).
`_capacity` is always `MAX_BUFFER_SIZE` in the source; the field is kept to
mirror the class layout. -/

/-- BytesBuffer::MAX_BUFFER_SIZE. -/
def MAX_BUFFER_SIZE : Nat := 4096

/-- State of a `BytesBuffer`. -/
structure BytesBuffer where
  data : Nat → Nat
  size : Nat
  position : Nat
  capacity : Nat

/-- Default constructor `BytesBuffer(void)`. -/
def BytesBuffer.mkEmpty : BytesBuffer :=
  { data := fun _ => 0, size := 0, position := 0, capacity := MAX_BUFFER_SIZE }

/-- Constructor `BytesBuffer(const uint8_t* data, size_t length)`: the size is
clamped to `MAX_BUFFER_SIZE` and `size` bytes are copied; backing cells the
constructor did not write are modelled as 0 (they are unreachable through the
bounds-checked accessors while `size ≤ capacity`). -/
def BytesBuffer.ofBytes (l : List Nat) : BytesBuffer :=
  { data := fun i => if i < min l.length MAX_BUFFER_SIZE then l.getD i 0 else 0
    size := min l.length MAX_BUFFER_SIZE
    position := 0
    capacity := MAX_BUFFER_SIZE }

/-- BytesBuffer::available. -/
def BytesBuffer.available (b : BytesBuffer) : Nat := b.size - b.position

/-- BytesBuffer::ensureCapacity: `required = _position + additionalBytes`;
with the fixed backing buffer it cannot grow anything and only reports whether
the bytes fit. -/
def BytesBuffer.ensureCapacity (b : BytesBuffer) (additionalBytes : Nat) : Bool :=
  decide (b.position + additionalBytes ≤ b.capacity)

/-- BytesBuffer::readUint8 (the caller's out-pointer is assumed non-null, as
everywhere in this embedding). -/
def BytesBuffer.readUint8 (b : BytesBuffer) : Bool × Nat × BytesBuffer :=
  if b.position ≥ b.size then (false, 0, b)
  else (true, b.data b.position, { b with position := b.position + 1 })

/-- BytesBuffer::readUint16: little-endian accumulation `temp |= byte << 8k`,
with the source's per-byte index guards kept. -/
def BytesBuffer.readUint16 (b : BytesBuffer) : Bool × Nat × BytesBuffer :=
  if b.position ≥ b.size ∨ b.position + 2 > b.size then (false, 0, b)
  else
    let temp :=
      (if b.position < b.size then b.data b.position else 0) |||
      (if b.position + 1 < b.size then b.data (b.position + 1) <<< 8 else 0)
    (true, temp, { b with position := b.position + 2 })

/-- BytesBuffer::readUint32. -/
def BytesBuffer.readUint32 (b : BytesBuffer) : Bool × Nat × BytesBuffer :=
  if b.position ≥ b.size ∨ b.position + 4 > b.size then (false, 0, b)
  else
    let temp :=
      (if b.position < b.size then b.data b.position else 0) |||
      (if b.position + 1 < b.size then b.data (b.position + 1) <<< 8 else 0) |||
      (if b.position + 2 < b.size then b.data (b.position + 2) <<< 16 else 0) |||
      (if b.position + 3 < b.size then b.data (b.position + 3) <<< 24 else 0)
    (true, temp, { b with position := b.position + 4 })

/-- BytesBuffer::readInt8: `static_cast<int8_t>` of the byte. -/
def BytesBuffer.readInt8 (b : BytesBuffer) : Bool × Int × BytesBuffer :=
  if b.position ≥ b.size then (false, 0, b)
  else (true, toSigned 8 (b.data b.position), { b with position := b.position + 1 })

/-- BytesBuffer::readInt16: the little-endian accumulation lands in an
`int16_t`, i.e. the two bytes are read as a two's-complement 16-bit value. -/
def BytesBuffer.readInt16 (b : BytesBuffer) : Bool × Int × BytesBuffer :=
  if b.position ≥ b.size ∨ b.position + 2 > b.size then (false, 0, b)
  else
    let temp :=
      (if b.position < b.size then b.data b.position else 0) |||
      (if b.position + 1 < b.size then b.data (b.position + 1) <<< 8 else 0)
    (true, toSigned 16 temp, { b with position := b.position + 2 })

/-- BytesBuffer::readInt32. -/
def BytesBuffer.readInt32 (b : BytesBuffer) : Bool × Int × BytesBuffer :=
  if b.position ≥ b.size ∨ b.position + 4 > b.size then (false, 0, b)
  else
    let temp :=
      (if b.position < b.size then b.data b.position else 0) |||
      (if b.position + 1 < b.size then b.data (b.position + 1) <<< 8 else 0) |||
      (if b.position + 2 < b.size then b.data (b.position + 2) <<< 16 else 0) |||
      (if b.position + 3 < b.size then b.data (b.position + 3) <<< 24 else 0)
    (true, toSigned 32 temp, { b with position := b.position + 4 })

/-- BytesBuffer::readFloat: identical byte gathering to readUint32; the
`memcpy` into a `float` reinterprets the 32-bit little-endian pattern as
IEEE-754, which is the identity on bits, so the bit pattern is returned. -/
def BytesBuffer.readFloat (b : BytesBuffer) : Bool × Nat × BytesBuffer :=
  if b.position ≥ b.size ∨ b.position + 4 > b.size then (false, 0, b)
  else
    let temp :=
      (if b.position < b.size then b.data b.position else 0) |||
      (if b.position + 1 < b.size then b.data (b.position + 1) <<< 8 else 0) |||
      (if b.position + 2 < b.size then b.data (b.position + 2) <<< 16 else 0) |||
      (if b.position + 3 < b.size then b.data (b.position + 3) <<< 24 else 0)
    (true, temp, { b with position := b.position + 4 })

/-- BytesBuffer::readBytes: copies `min(length, size - position)` bytes and
advances; returns the bytes actually read. -/
def BytesBuffer.readBytesAdv (b : BytesBuffer) (length : Nat) : List Nat × BytesBuffer :=
  let n := min length (b.size - b.position)
  ((List.range n).map fun i => b.data (b.position + i),
   { b with position := b.position + n })

/-- BytesBuffer::peekBytes: non-advancing read at an ABSOLUTE offset; fails
only when `offset ≥ size`, otherwise clamps the length to the available data
and reports whether anything was copied. -/
def BytesBuffer.peekBytes (b : BytesBuffer) (offset length : Nat) : Bool × List Nat :=
  if offset ≥ b.size then (false, [])
  else
    let len := min length (b.size - offset)
    (decide (len > 0), (List.range len).map fun i => b.data (offset + i))

/-- BytesBuffer::writeUint8. -/
def BytesBuffer.writeUint8 (b : BytesBuffer) (value : Nat) : Bool × BytesBuffer :=
  if b.ensureCapacity 1 then
    (true,
     { b with
        data := fun i => if i = b.position then value % 256 else b.data i
        position := b.position + 1
        size := max b.size (b.position + 1) })
  else (false, b)

/-- BytesBuffer::writeUint16 (little-endian, `value & 0xFF` per byte). -/
def BytesBuffer.writeUint16 (b : BytesBuffer) (value : Nat) : Bool × BytesBuffer :=
  if b.ensureCapacity 2 then
    (true,
     { b with
        data := fun i =>
          if i = b.position then value % 256
          else if i = b.position + 1 then value / 256 % 256
          else b.data i
        position := b.position + 2
        size := max b.size (b.position + 2) })
  else (false, b)

/-- BytesBuffer::writeUint32. -/
def BytesBuffer.writeUint32 (b : BytesBuffer) (value : Nat) : Bool × BytesBuffer :=
  if b.ensureCapacity 4 then
    (true,
     { b with
        data := fun i =>
          if i = b.position then value % 256
          else if i = b.position + 1 then value / 256 % 256
          else if i = b.position + 2 then value / 65536 % 256
          else if i = b.position + 3 then value / 16777216 % 256
          else b.data i
        position := b.position + 4
        size := max b.size (b.position + 4) })
  else (false, b)

/-- BytesBuffer::setPosition: clamped to `size`. -/
def BytesBuffer.setPosition (b : BytesBuffer) (p : Nat) : BytesBuffer :=
  { b with position := min p b.size }

/-- BytesBuffer::reset. -/
def BytesBuffer.reset (b : BytesBuffer) : BytesBuffer :=
  { b with position := 0 }

/-- BytesBuffer::setSize: when `size > _capacity` the source calls
`ensureCapacity(size - _capacity)` but DISCARDS its Bool result (with the
fixed backing buffer the call has no side effect), then assigns `_size = size`
unconditionally and clamps the position. -/
def BytesBuffer.setSize (b : BytesBuffer) (s : Nat) : BytesBuffer :=
  { b with size := s, position := min b.position s }

/-! ## Command layer (RadiaCode.cpp)

`RadiaCode::execute` sends the framed request and then consumes the echoed
4-byte response header with `response.readBytes(resp_header, 4)` before
handing the buffer to its caller; responses below are therefore processed
starting from that stripped cursor.  All arithmetic is on the 32-bit ESP32
target (`size_t` and `unsigned` are 32 bits wide). -/

/-- Sequence byte issued by one `RadiaCode::execute` call:
`req_seq_no = 0x80 + _seq` (with `_seq < 32` this stays within `uint8_t`). -/
def seqIssue (s : Nat) : Nat := 0x80 + s

/-- Sequence counter update of one `execute` call: `_seq = (_seq + 1) % 32`. -/
def seqAdvance (s : Nat) : Nat := (s + 1) % 32

/-- Value of `_seq` after `k` `execute` calls; the constructor initialises
`_seq = 0`.  Calls with a null connection return before touching `_seq`, so
`k` counts calls made with a live connection. -/
def seqStateAfter : Nat → Nat
  | 0 => 0
  | k + 1 => seqAdvance (seqStateAfter k)

/-- Sequence byte placed in the header of the `k`-th (0-based) `execute`
call. -/
def seqByteOfCall (k : Nat) : Nat := seqIssue (seqStateAfter k)

/-- RadiaCode::readRequest (RD_VIRT_STRING wrapper), applied to the response
buffer `r0` as produced by the transport.  Models: the 4-byte echoed-header
strip done at the end of `RadiaCode::execute`, the `getSize() < 8` check, the
short-circuited `readUint32(&retcode) && readUint32(&flen)` header read, and
the firmware-quirk truncation block.  The quirk block compares
`remaining_size == flen + 1` in 32-bit unsigned arithmetic and peeks ONE byte
at the ABSOLUTE offset `remaining_size - 1` (peekBytes offsets are absolute);
when `remaining_size = 0` that `size_t` subtraction wraps to `2^32 - 1`, the
peek fails and `last_byte` keeps an indeterminate stack value — that corner is
modelled as "not zero", i.e. the buffer is left unchanged.  `quirkAdjust` is
the quirk block of readRequest (RadiaCode.cpp lines 353-364). -/
def quirkAdjust (flen : Nat) (r2 : BytesBuffer) : BytesBuffer :=
  let remaining := r2.available
  if remaining = (flen + 1) % 2 ^ 32 then
    if remaining = 0 then r2
    else
      let last_byte := (r2.peekBytes (remaining - 1) 1).2.getD 0 0
      if last_byte = 0 then r2.setSize (r2.position + remaining - 1) else r2
  else r2

/-- RadiaCode::readRequest proper (the quirk block is `quirkAdjust`). -/
def readRequest (r0 : BytesBuffer) : BytesBuffer :=
  let r := (r0.readBytesAdv 4).2
  if r.size < 8 then BytesBuffer.mkEmpty
  else
    let h1 := r.readUint32
    let h2 := if h1.1 then h1.2.2.readUint32 else (false, 0, h1.2.2)
    if h1.1 && h2.1 then quirkAdjust h2.2.1 h2.2.2
    else BytesBuffer.mkEmpty

/-- Value pushed into the result vector of RadiaCode::batchReadVSFRs for one
register.  Registers of float type are pushed by `memcpy` bit reinterpretation
(kept as the bit pattern); unit registers push `raw & 0x01`; everything else
is pushed through a `(float)raw` cast, recorded here by its raw integer. -/
inductive VSFRValue where
  | floatBits (bits : Nat)
  | boolFlag (b : Nat)
  | intVal (raw : Nat)
deriving DecidableEq

/-- The id-to-type dispatch of RadiaCode::batchReadVSFRs (VSFR enum values
from RadiaCodeTypes.h: CHN_TO_keV_A0/A1/A2 = 0x8010..0x8012,
DS_UNITS = 0x8004, CR_UNITS = 0x8013, TEMP_degC = 0x8024,
RAW_TEMP_degC/TEMP_UP_degC/TEMP_DN_degC = 0x8033..0x8035). -/
def vsfrConvert (vsfr_id raw : Nat) : VSFRValue :=
  if vsfr_id = 0x8010 ∨ vsfr_id = 0x8011 ∨ vsfr_id = 0x8012 then .floatBits raw
  else if vsfr_id = 0x8004 ∨ vsfr_id = 0x8013 then .boolFlag (raw &&& 0x01)
  else if vsfr_id = 0x8024 ∨ vsfr_id = 0x8033 ∨ vsfr_id = 0x8034 ∨ vsfr_id = 0x8035 then
    .floatBits raw
  else .intVal raw

/-- The value-reading loop of batchReadVSFRs (one readUint32 per requested
id; a failed read leaves the documented zero default in `raw_value`). -/
def batchReadLoop : List Nat → BytesBuffer → List VSFRValue → List VSFRValue × BytesBuffer
  | [], br, acc => (acc, br)
  | id :: ids, br, acc =>
    let r := br.readUint32
    batchReadLoop ids r.2.2 (acc ++ [vsfrConvert id r.2.1])

/-- RadiaCode::batchReadVSFRs, applied to the response buffer `r0` as produced
by the transport (the echoed 4-byte header is stripped by `execute` first).
`expected_flags = (1 << nvsfr) - 1`; on the 32-bit target this expression is
well defined for `nvsfr ≤ 31`, which covers every physically possible batch
(the bitmask itself is 32 bits wide). -/
def batchReadVSFRs (vsfr_ids : List Nat) (r0 : BytesBuffer) : List VSFRValue :=
  if vsfr_ids.length = 0 then []
  else
    let r := (r0.readBytesAdv 4).2
    let vf := r.readUint32
    let valid_flags := vf.2.1
    let expected_flags := 2 ^ vsfr_ids.length - 1
    if valid_flags ≠ expected_flags then []
    else (batchReadLoop vsfr_ids vf.2.2 []).1

/-! ## Spectrum (RadiaCodeTypes.h / RadiaCodeTypes.cpp)

The source keeps a `uint32_t counts[MAX_CHANNELS]` array plus a `count_size`
high-water mark; only the first `count_size` cells are observable through the
vector-like interface, so `counts` is modelled as the list of those cells. -/

/-- Spectrum::MAX_CHANNELS. -/
def MAX_CHANNELS : Nat := 1024

/-- Spectrum record; float calibration coefficients are kept as bit
patterns. -/
structure Spectrum where
  duration_sec : Nat
  a0 : Nat
  a1 : Nat
  a2 : Nat
  counts : List Nat
deriving DecidableEq

/-- Spectrum::count_size. -/
def Spectrum.count_size (s : Spectrum) : Nat := s.counts.length

/-- Spectrum::push_back: appends only while `count_size < MAX_CHANNELS`,
otherwise the spectrum is left unchanged (a warning is printed once). -/
def Spectrum.push_back (s : Spectrum) (value : Nat) : Spectrum :=
  if s.counts.length < MAX_CHANNELS then { s with counts := s.counts ++ [value] }
  else s

/-- Spectrum::at: `counts[index]` for `index < count_size`, otherwise the 0
safety fallback.  (`at` is a Lean keyword, hence the name.) -/
def Spectrum.atIndex (s : Spectrum) (index : Nat) : Nat :=
  if index < s.counts.length then s.counts.getD index 0 else 0

/-- Spectrum::clear. -/
def Spectrum.clear (_ : Spectrum) : Spectrum :=
  { duration_sec := 0, a0 := 0, a1 := 0, a2 := 0, counts := [] }

/-! ## Spectrum decoding, format 1 (Decoders.cpp: decodeCountsV1)

The run body (`for (i = 0; i < cnt && count_size < MAX_CHANNELS; i++)`)
is the inner recursion; `goto end_decoding` aborts the whole decode and is
returned as an `aborted` flag.  All `v` computations are `uint32_t`
arithmetic, i.e. mod `2 ^ 32`; delta codes add onto the running `last`. -/

/-- Decode one run of `cnt` entries with value-length code `vlen`.
Returns (spectrum, last, buffer, aborted). -/
def decodeV1Run (vlen : Nat) : Nat → Spectrum → Nat → BytesBuffer →
    Spectrum × Nat × BytesBuffer × Bool
  | 0, sp, last, br => (sp, last, br, false)
  | i + 1, sp, last, br =>
    if sp.counts.length < MAX_CHANNELS then
      if vlen = 0 then
        decodeV1Run vlen i (sp.push_back 0) 0 br
      else if vlen = 1 then
        let r := br.readUint8
        if r.1 then decodeV1Run vlen i (sp.push_back r.2.1) r.2.1 r.2.2
        else (sp, last, r.2.2, true)
      else if vlen = 2 then
        let r := br.readInt8
        if r.1 then
          let v := (((last : Int) + r.2.1) % 4294967296).toNat
          decodeV1Run vlen i (sp.push_back v) v r.2.2
        else (sp, last, r.2.2, true)
      else if vlen = 3 then
        let r := br.readInt16
        if r.1 then
          let v := (((last : Int) + r.2.1) % 4294967296).toNat
          decodeV1Run vlen i (sp.push_back v) v r.2.2
        else (sp, last, r.2.2, true)
      else if vlen = 4 then
        if br.available < 3 then (sp, last, br, true)
        else
          let ra := br.readUint8
          let rb := ra.2.2.readUint8
          let rc := rb.2.2.readInt8
          if ra.1 && rb.1 && rc.1 then
            let delta : Int := rc.2.1 * 65536 + (rb.2.1 : Int) * 256 + (ra.2.1 : Int)
            let v := (((last : Int) + delta) % 4294967296).toNat
            decodeV1Run vlen i (sp.push_back v) v rc.2.2
          else (sp, last, rc.2.2, true)
      else if vlen = 5 then
        let r := br.readInt32
        if r.1 then
          let v := (((last : Int) + r.2.1) % 4294967296).toNat
          decodeV1Run vlen i (sp.push_back v) v r.2.2
        else (sp, last, r.2.2, true)
      else
        (sp, last, br, false)
    else (sp, last, br, false)

/-- Outer while loop of decodeCountsV1; one iteration per run header.  Each
iteration consumes the 2-byte header (the `readUint16` succeeds under the loop
guard), so `fuel = available` bounds the iteration count. -/
def decodeCountsV1Loop : Nat → Spectrum → Nat → BytesBuffer → Spectrum × BytesBuffer
  | 0, sp, _, br => (sp, br)
  | fuel + 1, sp, last, br =>
    if 2 ≤ br.available ∧ sp.counts.length < MAX_CHANNELS then
      let r := br.readUint16
      if r.1 then
        let u16 := r.2.1
        let cnt0 := (u16 >>> 4) &&& 0x0FFF
        let vlen := u16 &&& 0x0F
        let cnt := if cnt0 > 4096 then 0 else cnt0
        let step := decodeV1Run vlen cnt sp last r.2.2
        if step.2.2.2 then (step.1, step.2.2.1)
        else decodeCountsV1Loop fuel step.1 step.2.1 step.2.2.1
      else (sp, r.2.2)
    else (sp, br)

/-- Decoders.cpp: decodeCountsV1.  Clears the counts, initialises `last = 0`,
bails out when fewer than two bytes are available, then runs the loop. -/
def decodeCountsV1 (br : BytesBuffer) (sp : Spectrum) : Spectrum × BytesBuffer :=
  let sp0 := { sp with counts := [] }
  if br.available < 2 then (sp0, br)
  else decodeCountsV1Loop br.available sp0 0 br

/-! ## Telemetry stream decoding (Decoders.cpp: decodeDataBuf)

Record kinds as a sum type.  `float` wire fields are kept as 32-bit bit
patterns; the post-read conversions (`err / 10.0f`, `(t - 2000) / 100.0f`,
`charge / 100.0f`) are float arithmetic on those fields and are recorded by
keeping the raw pre-conversion values, which determine them. -/

/-- Tagged union over the record kinds produced by decodeDataBuf. -/
inductive DataItem where
  | realTime (timestamp : Nat) (count_rate_bits dose_rate_bits : Nat)
      (count_rate_err_raw dose_rate_err_raw : Nat) (flags : Nat) (real_time_flags : Nat)
  | rawData (timestamp : Nat) (count_rate_bits dose_rate_bits : Nat)
  | doseRateDB (timestamp : Nat) (count : Nat) (count_rate_bits dose_rate_bits : Nat)
      (dose_rate_err_raw : Nat) (flags : Nat)
  | rareData (timestamp : Nat) (duration : Nat) (dose_bits : Nat)
      (temperature_raw charge_level_raw : Nat) (flags : Nat)
  | event (timestamp : Nat) (event_id : Nat) (event_param1 : Nat) (flags : Nat)
deriving DecidableEq

/-- The `(eid, gid)` pairs decodeDataBuf can process: decodable records
(0,0) (0,1) (0,2) (0,3) (0,7) (0,9) and known skip patterns (0,4) (0,5)
(0,6) (0,8) (1,1) (1,2) (1,3).  Any other pair hits the final `break`. -/
def isKnownPair (eid gid : Nat) : Bool :=
  (eid == 0 && (gid == 0 || gid == 1 || gid == 2 || gid == 3 || gid == 7 ||
    gid == 9 || gid == 4 || gid == 5 || gid == 6 || gid == 8)) ||
  (eid == 1 && (gid == 1 || gid == 2 || gid == 3))

/-- `timestamp = base_time_sec + (ts_offset * 10) / 1000` in the source:
`int` multiply and truncating division, narrowed into a `uint32_t`. -/
def recordTimestamp (base : Nat) (ts : Int) : Nat :=
  ((((base : Int) + (ts * 10).tdiv 1000) % 4294967296).toNat)

/-- While loop of decodeDataBuf.  The sequence-gap check only logs and
resyncs `next_seq`; the net state update is `next_seq = (seq + 1) % 256`,
`first_packet = false` on every iteration.  Each iteration consumes at least
the 7 header bytes, so `fuel = available + 1` bounds the iteration count. -/
def decodeDataBufLoop : Nat → BytesBuffer → Nat → Nat → Bool → List DataItem →
    List DataItem × BytesBuffer
  | 0, br, _, _, _, ret => (ret, br)
  | fuel + 1, br, base, _next_seq, _first, ret =>
    if 7 ≤ br.available then
      let r0 := br.readUint8
      let seq := r0.2.1
      let r1 := r0.2.2.readUint8
      let eid := r1.2.1
      let r2 := r1.2.2.readUint8
      let gid := r2.2.1
      let r3 := r2.2.2.readInt32
      let ts := recordTimestamp base r3.2.1
      let br' := r3.2.2
      let ns' := (seq + 1) % 256
      if eid = 0 ∧ gid = 0 then
        let a := br'.readFloat
        let b := a.2.2.readFloat
        let c := b.2.2.readUint16
        let d := c.2.2.readUint16
        let e := d.2.2.readUint16
        let f := e.2.2.readUint8
        decodeDataBufLoop fuel f.2.2 base ns' false
          (ret ++ [DataItem.realTime ts a.2.1 b.2.1 c.2.1 d.2.1 e.2.1 f.2.1])
      else if eid = 0 ∧ gid = 1 then
        let a := br'.readFloat
        let b := a.2.2.readFloat
        decodeDataBufLoop fuel b.2.2 base ns' false
          (ret ++ [DataItem.rawData ts a.2.1 b.2.1])
      else if eid = 0 ∧ gid = 2 then
        let a := br'.readUint32
        let b := a.2.2.readFloat
        let c := b.2.2.readFloat
        let d := c.2.2.readUint16
        let e := d.2.2.readUint16
        decodeDataBufLoop fuel e.2.2 base ns' false
          (ret ++ [DataItem.doseRateDB ts a.2.1 b.2.1 c.2.1 d.2.1 e.2.1])
      else if eid = 0 ∧ gid = 3 then
        let a := br'.readUint32
        let b := a.2.2.readFloat
        let c := b.2.2.readUint16
        let d := c.2.2.readUint16
        let e := d.2.2.readUint16
        decodeDataBufLoop fuel e.2.2 base ns' false
          (ret ++ [DataItem.rareData ts a.2.1 b.2.1 c.2.1 d.2.1 e.2.1])
      else if eid = 0 ∧ gid = 7 then
        let a := br'.readUint8
        let b := a.2.2.readUint8
        let c := b.2.2.readUint16
        decodeDataBufLoop fuel c.2.2 base ns' false
          (ret ++ [DataItem.event ts a.2.1 b.2.1 c.2.1])
      else if eid = 0 ∧ gid = 9 then
        let a := br'.readFloat
        let b := a.2.2.readUint16
        decodeDataBufLoop fuel b.2.2 base ns' false
          (ret ++ [DataItem.rawData ts 0 a.2.1])
      else if eid = 0 ∧ gid = 4 then
        let a := br'.readUint32
        let b := a.2.2.readFloat
        let c := b.2.2.readFloat
        let d := c.2.2.readUint16
        let e := d.2.2.readUint16
        decodeDataBufLoop fuel e.2.2 base ns' false ret
      else if eid = 0 ∧ gid = 5 then
        let a := br'.readUint32
        let b := a.2.2.readFloat
        let c := b.2.2.readFloat
        let d := c.2.2.readUint16
        let e := d.2.2.readUint16
        decodeDataBufLoop fuel e.2.2 base ns' false ret
      else if eid = 0 ∧ gid = 6 then
        let a := br'.readUint16
        let b := a.2.2.readUint16
        let c := b.2.2.readUint16
        decodeDataBufLoop fuel c.2.2 base ns' false ret
      else if eid = 0 ∧ gid = 8 then
        let a := br'.readFloat
        let b := a.2.2.readUint16
        decodeDataBufLoop fuel b.2.2 base ns' false ret
      else if eid = 1 ∧ gid = 1 then
        let a := br'.readUint16
        let b := a.2.2.readUint32
        let skipped := b.2.2.setPosition (b.2.2.position + 8 * a.2.1)
        decodeDataBufLoop fuel skipped base ns' false ret
      else if eid = 1 ∧ gid = 2 then
        let a := br'.readUint16
        let b := a.2.2.readUint32
        let skipped := b.2.2.setPosition (b.2.2.position + 16 * a.2.1)
        decodeDataBufLoop fuel skipped base ns' false ret
      else if eid = 1 ∧ gid = 3 then
        let a := br'.readUint16
        let b := a.2.2.readUint32
        let skipped := b.2.2.setPosition (b.2.2.position + 14 * a.2.1)
        decodeDataBufLoop fuel skipped base ns' false ret
      else
        (ret, br')
    else (ret, br)

/-- Decoders.cpp: decodeDataBuf. -/
def decodeDataBuf (br : BytesBuffer) (base_time_sec : Nat) : List DataItem × BytesBuffer :=
  decodeDataBufLoop (br.available + 1) br base_time_sec 0 true []

/-! ## BLE notification reassembly (BluetoothTransport.cpp)

State touched by the notification lambda registered in the constructor; the
fixed `uint8_t _resp_buffer[MAX_RESP_SIZE]` is modelled as a total function.
`BluetoothTransport::execute` resets `_resp_received = _resp_size = 0` and
`_response_ready = false` before each exchange. -/

/-- BluetoothTransport::MAX_RESP_SIZE. -/
def MAX_RESP_SIZE : Nat := 4096

/-- Reassembly state of the BLE transport. -/
structure BTState where
  respBuffer : Nat → Nat
  respReceived : Nat
  respSize : Nat
  responseReady : Bool

/-- `memcpy(buf + off, chunk, chunk.length)` on the modelled byte store. -/
def writeChunk (buf : Nat → Nat) (off : Nat) (chunk : List Nat) : Nat → Nat :=
  fun i => if off ≤ i ∧ i < off + chunk.length then chunk.getD (i - off) 0 else buf i

/-- The notification lambda (BluetoothTransport.cpp lines 82-150).  First
branch: `_resp_size == 0 && length >= 4` decodes the little-endian u32 from
the chunk's first four bytes, sets `_resp_size = size_value + 4` (32-bit
`size_t` arithmetic), clamps it to MAX_RESP_SIZE, zeroes the buffer and copies
the whole chunk.  Else branch: appends when the chunk fits (the inner
truncation recomputation is dead code under the outer guard).  Finally
`_response_ready` is set once `_resp_received >= _resp_size`. -/
def notifyHandler (st : BTState) (chunk : List Nat) : BTState :=
  let st1 :=
    if st.respSize = 0 ∧ 4 ≤ chunk.length then
      let size_value :=
        chunk.getD 0 0 ||| chunk.getD 1 0 <<< 8 |||
        chunk.getD 2 0 <<< 16 ||| chunk.getD 3 0 <<< 24
      let rs0 := (size_value + 4) % 2 ^ 32
      let rs := if rs0 > MAX_RESP_SIZE then MAX_RESP_SIZE else rs0
      { respBuffer := writeChunk (fun _ => 0) 0 chunk
        respReceived := chunk.length
        respSize := rs
        responseReady := st.responseReady }
    else if st.respReceived + chunk.length ≤ MAX_RESP_SIZE then
      { st with
          respBuffer := writeChunk st.respBuffer st.respReceived chunk
          respReceived := st.respReceived + chunk.length }
    else st
  if st1.respSize ≤ st1.respReceived then { st1 with responseReady := true } else st1

/-- Deliver a sequence of notification chunks. -/
def feedChunks (st : BTState) (chunks : List (List Nat)) : BTState :=
  chunks.foldl notifyHandler st

/-- State right after the reset in BluetoothTransport::execute (stale buffer
bytes are unobservable below `respReceived` and modelled as 0). -/
def initBTState : BTState :=
  { respBuffer := fun _ => 0, respReceived := 0, respSize := 0, responseReady := false }

/-- First `n` bytes of a modelled byte store, as a list. -/
def bufferBytes (f : Nat → Nat) (n : Nat) : List Nat :=
  (List.range n).map f

/-! ## Helper lemmas -/

/-- Disjoint bitwise-or is addition: ORing a value below `2 ^ k` with a
`k`-shifted value adds them. -/
theorem lor_shiftLeft_eq_add (a b k : Nat) (h : a < 2 ^ k) :
    a ||| b <<< k = 2 ^ k * b + a := by
  apply Nat.eq_of_testBit_eq
  intro i
  rw [Nat.testBit_lor, Nat.testBit_shiftLeft, Nat.testBit_mul_pow_two_add b h i]
  by_cases hik : i < k
  · have hge : ¬ i ≥ k := by omega
    simp [hik, hge]
  · have hge : i ≥ k := by omega
    have ha : a.testBit i = false :=
      Nat.testBit_eq_false_of_lt (lt_of_lt_of_le h (Nat.pow_le_pow_right (by norm_num) hge))
    simp [hik, hge, ha]

/-- The two-byte little-endian accumulation of the source equals `leVal2`. -/
theorem lor2_eq (b0 b1 : Nat) (h0 : b0 < 256) :
    b0 ||| b1 <<< 8 = leVal2 b0 b1 := by
  rw [lor_shiftLeft_eq_add b0 b1 8 (by omega)]
  unfold leVal2
  omega

/-- The four-byte little-endian accumulation of the source equals `leVal4`. -/
theorem lor4_eq (b0 b1 b2 b3 : Nat) (h0 : b0 < 256) (h1 : b1 < 256) (h2 : b2 < 256) :
    b0 ||| b1 <<< 8 ||| b2 <<< 16 ||| b3 <<< 24 = leVal4 b0 b1 b2 b3 := by
  have e1 : b0 ||| b1 <<< 8 = 2 ^ 8 * b1 + b0 := lor_shiftLeft_eq_add b0 b1 8 (by omega)
  have l1 : b0 ||| b1 <<< 8 < 2 ^ 16 := by rw [e1]; omega
  have e2 : b0 ||| b1 <<< 8 ||| b2 <<< 16 = 2 ^ 16 * b2 + (b0 ||| b1 <<< 8) :=
    lor_shiftLeft_eq_add _ b2 16 l1
  have l2 : b0 ||| b1 <<< 8 ||| b2 <<< 16 < 2 ^ 24 := by rw [e2, e1]; omega
  have e3 : b0 ||| b1 <<< 8 ||| b2 <<< 16 ||| b3 <<< 24 =
      2 ^ 24 * b3 + (b0 ||| b1 <<< 8 ||| b2 <<< 16) :=
    lor_shiftLeft_eq_add _ b3 24 l2
  rw [e3, e2, e1]
  unfold leVal4
  omega

/-- Elements of a byte list below 256 give `getD` values below 256. -/
theorem getD_lt_256 (l : List Nat) (i : Nat) (h : ∀ x ∈ l, x < 256)
    (hi : i < l.length) : l.getD i 0 < 256 := by
  rw [List.getD_eq_getElem?_getD, List.getElem?_eq_getElem hi, Option.getD_some]
  exact h _ (List.getElem_mem hi)

/-- Well-formedness of constructed buffers: every cell reads below 256. -/
theorem ofBytes_WF (l : List Nat) (h : ∀ x ∈ l, x < 256) :
    ∀ i, i < (BytesBuffer.ofBytes l).size → (BytesBuffer.ofBytes l).data i < 256 := by
  intro i _
  show (if i < min l.length MAX_BUFFER_SIZE then l.getD i 0 else 0) < 256
  by_cases hc : i < min l.length MAX_BUFFER_SIZE
  · rw [if_pos hc]
    exact getD_lt_256 l i h (by omega)
  · rw [if_neg hc]
    omega

/-- Success shape of readUint8. -/
theorem readUint8_success (b : BytesBuffer) (h : b.position < b.size) :
    b.readUint8 = (true, b.data b.position, { b with position := b.position + 1 }) := by
  unfold BytesBuffer.readUint8
  rw [if_neg (by omega)]

/-- Failure shape of readUint8. -/
theorem readUint8_fail (b : BytesBuffer) (h : b.size ≤ b.position) :
    b.readUint8 = (false, 0, b) := by
  unfold BytesBuffer.readUint8
  rw [if_pos (by omega)]

/-- Success shape of readUint16. -/
theorem readUint16_success (b : BytesBuffer) (h : b.position + 2 ≤ b.size) :
    b.readUint16 = (true, b.data b.position ||| b.data (b.position + 1) <<< 8,
      { b with position := b.position + 2 }) := by
  unfold BytesBuffer.readUint16
  rw [if_neg (by omega)]
  rw [if_pos (show b.position < b.size by omega),
      if_pos (show b.position + 1 < b.size by omega)]

/-- Failure shape of readUint16. -/
theorem readUint16_fail (b : BytesBuffer) (h : b.size < b.position + 2) :
    b.readUint16 = (false, 0, b) := by
  unfold BytesBuffer.readUint16
  rw [if_pos (by omega)]

/-- Success shape of readUint32. -/
theorem readUint32_success (b : BytesBuffer) (h : b.position + 4 ≤ b.size) :
    b.readUint32 = (true,
      b.data b.position ||| b.data (b.position + 1) <<< 8 |||
        b.data (b.position + 2) <<< 16 ||| b.data (b.position + 3) <<< 24,
      { b with position := b.position + 4 }) := by
  unfold BytesBuffer.readUint32
  rw [if_neg (by omega)]
  rw [if_pos (show b.position < b.size by omega),
      if_pos (show b.position + 1 < b.size by omega),
      if_pos (show b.position + 2 < b.size by omega),
      if_pos (show b.position + 3 < b.size by omega)]

/-- Failure shape of readUint32. -/
theorem readUint32_fail (b : BytesBuffer) (h : b.size < b.position + 4) :
    b.readUint32 = (false, 0, b) := by
  unfold BytesBuffer.readUint32
  rw [if_pos (by omega)]

/-- Success shape of readInt8. -/
theorem readInt8_success (b : BytesBuffer) (h : b.position < b.size) :
    b.readInt8 = (true, toSigned 8 (b.data b.position), { b with position := b.position + 1 }) := by
  unfold BytesBuffer.readInt8
  rw [if_neg (by omega)]

/-- Failure shape of readInt8. -/
theorem readInt8_fail (b : BytesBuffer) (h : b.size ≤ b.position) :
    b.readInt8 = (false, 0, b) := by
  unfold BytesBuffer.readInt8
  rw [if_pos (by omega)]

/-- Success shape of readInt16. -/
theorem readInt16_success (b : BytesBuffer) (h : b.position + 2 ≤ b.size) :
    b.readInt16 = (true, toSigned 16 (b.data b.position ||| b.data (b.position + 1) <<< 8),
      { b with position := b.position + 2 }) := by
  unfold BytesBuffer.readInt16
  rw [if_neg (by omega)]
  rw [if_pos (show b.position < b.size by omega),
      if_pos (show b.position + 1 < b.size by omega)]

/-- Failure shape of readInt16. -/
theorem readInt16_fail (b : BytesBuffer) (h : b.size < b.position + 2) :
    b.readInt16 = (false, 0, b) := by
  unfold BytesBuffer.readInt16
  rw [if_pos (by omega)]

/-- Success shape of readInt32. -/
theorem readInt32_success (b : BytesBuffer) (h : b.position + 4 ≤ b.size) :
    b.readInt32 = (true,
      toSigned 32 (b.data b.position ||| b.data (b.position + 1) <<< 8 |||
        b.data (b.position + 2) <<< 16 ||| b.data (b.position + 3) <<< 24),
      { b with position := b.position + 4 }) := by
  unfold BytesBuffer.readInt32
  rw [if_neg (by omega)]
  rw [if_pos (show b.position < b.size by omega),
      if_pos (show b.position + 1 < b.size by omega),
      if_pos (show b.position + 2 < b.size by omega),
      if_pos (show b.position + 3 < b.size by omega)]

/-- Failure shape of readInt32. -/
theorem readInt32_fail (b : BytesBuffer) (h : b.size < b.position + 4) :
    b.readInt32 = (false, 0, b) := by
  unfold BytesBuffer.readInt32
  rw [if_pos (by omega)]

/-- Success shape of readFloat. -/
theorem readFloat_success (b : BytesBuffer) (h : b.position + 4 ≤ b.size) :
    b.readFloat = (true,
      b.data b.position ||| b.data (b.position + 1) <<< 8 |||
        b.data (b.position + 2) <<< 16 ||| b.data (b.position + 3) <<< 24,
      { b with position := b.position + 4 }) := by
  unfold BytesBuffer.readFloat
  rw [if_neg (by omega)]
  rw [if_pos (show b.position < b.size by omega),
      if_pos (show b.position + 1 < b.size by omega),
      if_pos (show b.position + 2 < b.size by omega),
      if_pos (show b.position + 3 < b.size by omega)]

/-- Failure shape of readFloat. -/
theorem readFloat_fail (b : BytesBuffer) (h : b.size < b.position + 4) :
    b.readFloat = (false, 0, b) := by
  unfold BytesBuffer.readFloat
  rw [if_pos (by omega)]

/-! ## Claim theorems -/

/-- C2 (code_bug): the spec invariant `position ≤ size ≤ capacity` is broken
by `BytesBuffer::setSize`: called with a size above the fixed capacity it
invokes `ensureCapacity`, DISCARDS the failure result and assigns the
oversized value anyway, leaving `size = 4097 > capacity = 4096` on a fresh
buffer (subsequent reads would then index past the 4096-byte backing array). -/
theorem setSize_breaks_capacity_invariant :
    ((BytesBuffer.ofBytes []).setSize 4097).size = 4097 ∧
    ((BytesBuffer.ofBytes []).setSize 4097).capacity = 4096 ∧
    ¬ ((BytesBuffer.ofBytes []).setSize 4097).size ≤
        ((BytesBuffer.ofBytes []).setSize 4097).capacity := by
  refine ⟨rfl, rfl, by decide⟩

/-- Value of `_seq` after `k` live `execute` calls is `k % 32`. -/
theorem seqStateAfter_eq (k : Nat) : seqStateAfter k = k % 32 := by
  induction k with
  | zero => rfl
  | succ n ih =>
    show seqAdvance (seqStateAfter n) = (n + 1) % 32
    rw [ih]
    unfold seqAdvance
    omega

/-- C9 (confirmed): the `k`-th (0-based) `execute` call on a live session
places the sequence byte `0x80 + (k % 32)` in the request header, i.e. the
bytes cycle 0x80, 0x81, ..., 0x9F, 0x80, ...  -/
theorem execute_sequence_byte (k : Nat) : seqByteOfCall k = 0x80 + k % 32 := by
  unfold seqByteOfCall seqIssue
  rw [seqStateAfter_eq]

/-- C10 (confirmed): the Spectrum vector-like interface is total and
bounds-safe: `at(i)` returns `counts[i]` for `i < count_size` and 0 for every
out-of-range index; `push_back` on a full spectrum (count_size = MAX_CHANNELS)
changes nothing; and `count_size ≤ MAX_CHANNELS` is preserved by push_back. -/
theorem spectrum_interface_safe (s : Spectrum) (i value : Nat) :
    (i < s.count_size → s.atIndex i = s.counts.getD i 0) ∧
    (s.count_size ≤ i → s.atIndex i = 0) ∧
    (s.count_size = MAX_CHANNELS → s.push_back value = s) ∧
    (s.count_size ≤ MAX_CHANNELS → (s.push_back value).count_size ≤ MAX_CHANNELS) := by
  unfold Spectrum.count_size Spectrum.atIndex Spectrum.push_back
  refine ⟨?_, ?_, ?_, ?_⟩
  · intro h
    rw [if_pos h]
  · intro h
    rw [if_neg (by omega)]
  · intro h
    rw [if_neg (by omega)]
  · intro h
    by_cases hlt : s.counts.length < MAX_CHANNELS
    · rw [if_pos hlt]
      simp only [List.length_append, List.length_cons, List.length_nil]
      omega
    · rw [if_neg hlt]
      omega

/-- C10 witness: concrete instance of the interface-safety theorem. -/
theorem spectrum_interface_safe_witness :
    (Spectrum.mk 0 0 0 0 [3, 4]).atIndex 1 = 4 ∧
    ((Spectrum.mk 0 0 0 0 [3, 4]).push_back 7).count_size ≤ MAX_CHANNELS := by
  refine ⟨?_, ?_⟩
  · exact ((spectrum_interface_safe (Spectrum.mk 0 0 0 0 [3, 4]) 1 7).1 (by decide)).trans
      (by decide)
  · exact (spectrum_interface_safe (Spectrum.mk 0 0 0 0 [3, 4]) 1 7).2.2.2 (by decide)

/-- C6 (confirmed): spectrum format-1 decoding of the run header
`u16 = (3 << 4) | 2` (count 3, int8-delta) followed by the i8 values
5, -2, 10 starting from `last = 0` appends exactly the counts [5, 3, 13]. -/
theorem decodeCountsV1_delta_example :
    (decodeCountsV1 (BytesBuffer.ofBytes [0x32, 0x00, 0x05, 0xFE, 0x0A])
      (Spectrum.mk 0 0 0 0 [])).1.counts = [5, 3, 13] := by decide

/-- C8 (confirmed): batchReadVSFRs with `N` requested ids (1 ≤ N ≤ 31, the
range on which the 32-bit `(1 << N) - 1` mask is defined) returns the empty
vector whenever the decoded validity bitmask differs from `2 ^ N - 1`,
regardless of the raw values present in the response. -/
theorem batchReadVSFRs_bitmask_check (ids : List Nat) (r0 : BytesBuffer)
    (h1 : 1 ≤ ids.length) (h31 : ids.length ≤ 31)
    (hmask : ((r0.readBytesAdv 4).2.readUint32).2.1 ≠ 2 ^ ids.length - 1) :
    batchReadVSFRs ids r0 = [] := by
  unfold batchReadVSFRs
  rw [if_neg (by omega)]
  rw [if_pos hmask]

/-- C8 witness: requesting 3 registers and receiving bitmask 0b011 yields an
empty result despite three raw values being present. -/
theorem batchReadVSFRs_bitmask_check_witness :
    batchReadVSFRs [0x8010, 0x8011, 0x8012]
      (BytesBuffer.ofBytes
        [0, 0, 0, 0, 3, 0, 0, 0, 1, 0, 0, 0, 2, 0, 0, 0, 3, 0, 0, 0]) = [] :=
  batchReadVSFRs_bitmask_check [0x8010, 0x8011, 0x8012] _ (by decide) (by decide) (by decide)

/-- C3 (confirmed): for every buffer state with well-formed (byte-valued)
backing data and every typed read of width w, the read succeeds iff
`position + w ≤ size`; on failure the buffer (hence the position) is
unchanged and the output is the zero default; on success the output is the
little-endian interpretation of the w bytes at the position (two's complement
for the signed reads, IEEE-754 bit pattern for readFloat) and the position
advances by w. -/
theorem bytesBuffer_reads_spec (b : BytesBuffer) (hWF : ∀ i, i < b.size → b.data i < 256) :
    ((b.readUint8.1 = true ↔ b.position + 1 ≤ b.size) ∧
      (b.readUint8.1 = false → b.readUint8 = (false, 0, b)) ∧
      (b.position + 1 ≤ b.size →
        b.readUint8.2.1 = b.data b.position ∧
        b.readUint8.2.2 = { b with position := b.position + 1 })) ∧
    ((b.readUint16.1 = true ↔ b.position + 2 ≤ b.size) ∧
      (b.readUint16.1 = false → b.readUint16 = (false, 0, b)) ∧
      (b.position + 2 ≤ b.size →
        b.readUint16.2.1 = leVal2 (b.data b.position) (b.data (b.position + 1)) ∧
        b.readUint16.2.2 = { b with position := b.position + 2 })) ∧
    ((b.readUint32.1 = true ↔ b.position + 4 ≤ b.size) ∧
      (b.readUint32.1 = false → b.readUint32 = (false, 0, b)) ∧
      (b.position + 4 ≤ b.size →
        b.readUint32.2.1 = leVal4 (b.data b.position) (b.data (b.position + 1))
          (b.data (b.position + 2)) (b.data (b.position + 3)) ∧
        b.readUint32.2.2 = { b with position := b.position + 4 })) ∧
    ((b.readInt8.1 = true ↔ b.position + 1 ≤ b.size) ∧
      (b.readInt8.1 = false → b.readInt8 = (false, 0, b)) ∧
      (b.position + 1 ≤ b.size →
        b.readInt8.2.1 = toSigned 8 (b.data b.position) ∧
        b.readInt8.2.2 = { b with position := b.position + 1 })) ∧
    ((b.readInt16.1 = true ↔ b.position + 2 ≤ b.size) ∧
      (b.readInt16.1 = false → b.readInt16 = (false, 0, b)) ∧
      (b.position + 2 ≤ b.size →
        b.readInt16.2.1 = toSigned 16 (leVal2 (b.data b.position) (b.data (b.position + 1))) ∧
        b.readInt16.2.2 = { b with position := b.position + 2 })) ∧
    ((b.readInt32.1 = true ↔ b.position + 4 ≤ b.size) ∧
      (b.readInt32.1 = false → b.readInt32 = (false, 0, b)) ∧
      (b.position + 4 ≤ b.size →
        b.readInt32.2.1 = toSigned 32 (leVal4 (b.data b.position) (b.data (b.position + 1))
          (b.data (b.position + 2)) (b.data (b.position + 3))) ∧
        b.readInt32.2.2 = { b with position := b.position + 4 })) ∧
    ((b.readFloat.1 = true ↔ b.position + 4 ≤ b.size) ∧
      (b.readFloat.1 = false → b.readFloat = (false, 0, b)) ∧
      (b.position + 4 ≤ b.size →
        b.readFloat.2.1 = leVal4 (b.data b.position) (b.data (b.position + 1))
          (b.data (b.position + 2)) (b.data (b.position + 3)) ∧
        b.readFloat.2.2 = { b with position := b.position + 4 })) := by
  have w1 : b.position + 1 ≤ b.size → b.data b.position < 256 :=
    fun h => hWF _ (by omega)
  have w2 : b.position + 2 ≤ b.size → b.data (b.position + 1) < 256 :=
    fun h => hWF _ (by omega)
  have w3 : b.position + 4 ≤ b.size → b.data (b.position + 2) < 256 :=
    fun h => hWF _ (by omega)
  refine ⟨⟨?_, ?_, ?_⟩, ⟨?_, ?_, ?_⟩, ⟨?_, ?_, ?_⟩, ⟨?_, ?_, ?_⟩, ⟨?_, ?_, ?_⟩,
    ⟨?_, ?_, ?_⟩, ⟨?_, ?_, ?_⟩⟩
  · constructor
    · intro h
      by_cases hc : b.position + 1 ≤ b.size
      · exact hc
      · rw [readUint8_fail b (by omega)] at h; simp at h
    · intro h; rw [readUint8_success b (by omega)]
  · intro h
    by_cases hc : b.position + 1 ≤ b.size
    · rw [readUint8_success b (by omega)] at h; simp at h
    · exact readUint8_fail b (by omega)
  · intro h
    rw [readUint8_success b (by omega)]
    exact ⟨rfl, rfl⟩
  · constructor
    · intro h
      by_cases hc : b.position + 2 ≤ b.size
      · exact hc
      · rw [readUint16_fail b (by omega)] at h; simp at h
    · intro h; rw [readUint16_success b h]
  · intro h
    by_cases hc : b.position + 2 ≤ b.size
    · rw [readUint16_success b hc] at h; simp at h
    · exact readUint16_fail b (by omega)
  · intro h
    rw [readUint16_success b h]
    exact ⟨lor2_eq _ _ (w1 (by omega)), rfl⟩
  · constructor
    · intro h
      by_cases hc : b.position + 4 ≤ b.size
      · exact hc
      · rw [readUint32_fail b (by omega)] at h; simp at h
    · intro h; rw [readUint32_success b h]
  · intro h
    by_cases hc : b.position + 4 ≤ b.size
    · rw [readUint32_success b hc] at h; simp at h
    · exact readUint32_fail b (by omega)
  · intro h
    rw [readUint32_success b h]
    exact ⟨lor4_eq _ _ _ _ (w1 (by omega)) (w2 (by omega)) (w3 h), rfl⟩
  · constructor
    · intro h
      by_cases hc : b.position + 1 ≤ b.size
      · exact hc
      · rw [readInt8_fail b (by omega)] at h; simp at h
    · intro h; rw [readInt8_success b (by omega)]
  · intro h
    by_cases hc : b.position + 1 ≤ b.size
    · rw [readInt8_success b (by omega)] at h; simp at h
    · exact readInt8_fail b (by omega)
  · intro h
    rw [readInt8_success b (by omega)]
    exact ⟨rfl, rfl⟩
  · constructor
    · intro h
      by_cases hc : b.position + 2 ≤ b.size
      · exact hc
      · rw [readInt16_fail b (by omega)] at h; simp at h
    · intro h; rw [readInt16_success b h]
  · intro h
    by_cases hc : b.position + 2 ≤ b.size
    · rw [readInt16_success b hc] at h; simp at h
    · exact readInt16_fail b (by omega)
  · intro h
    rw [readInt16_success b h]
    refine ⟨?_, rfl⟩
    rw [lor2_eq _ _ (w1 (by omega))]
  · constructor
    · intro h
      by_cases hc : b.position + 4 ≤ b.size
      · exact hc
      · rw [readInt32_fail b (by omega)] at h; simp at h
    · intro h; rw [readInt32_success b h]
  · intro h
    by_cases hc : b.position + 4 ≤ b.size
    · rw [readInt32_success b hc] at h; simp at h
    · exact readInt32_fail b (by omega)
  · intro h
    rw [readInt32_success b h]
    refine ⟨?_, rfl⟩
    rw [lor4_eq _ _ _ _ (w1 (by omega)) (w2 (by omega)) (w3 h)]
  · constructor
    · intro h
      by_cases hc : b.position + 4 ≤ b.size
      · exact hc
      · rw [readFloat_fail b (by omega)] at h; simp at h
    · intro h; rw [readFloat_success b h]
  · intro h
    by_cases hc : b.position + 4 ≤ b.size
    · rw [readFloat_success b hc] at h; simp at h
    · exact readFloat_fail b (by omega)
  · intro h
    rw [readFloat_success b h]
    exact ⟨lor4_eq _ _ _ _ (w1 (by omega)) (w2 (by omega)) (w3 h), rfl⟩

/-- C3 witness: concrete success and failure instances of the read
contract. -/
theorem bytesBuffer_reads_spec_witness :
    (BytesBuffer.ofBytes [1, 2, 3, 4, 5]).readUint32.2.1 = leVal4 1 2 3 4 ∧
    ((BytesBuffer.ofBytes [250, 251]).readUint32.1 = true ↔ (0 : Nat) + 4 ≤ 2) := by
  refine ⟨?_, ?_⟩
  · exact ((bytesBuffer_reads_spec (BytesBuffer.ofBytes [1, 2, 3, 4, 5])
      (ofBytes_WF _ (by decide))).2.2.1.2.2 (by decide)).1.trans (by decide)
  · exact (bytesBuffer_reads_spec (BytesBuffer.ofBytes [250, 251])
      (ofBytes_WF _ (by decide))).2.2.1.1

/-- C7 (confirmed): whenever the decodeDataBuf loop meets a record header
(at least 7 bytes available) whose `(eid, gid)` pair matches none of the
decodable or known-skip patterns, it stops: the records decoded so far are
returned unchanged and only the 7 header bytes of the offending record were
consumed from the stream. -/
theorem decodeDataBuf_unknown_stops (fuel : Nat) (br : BytesBuffer) (base ns : Nat)
    (first : Bool) (ret : List DataItem)
    (h7 : 7 ≤ br.available)
    (hunk : isKnownPair (br.data (br.position + 1)) (br.data (br.position + 2)) = false) :
    (decodeDataBufLoop (fuel + 1) br base ns first ret).1 = ret ∧
    (decodeDataBufLoop (fuel + 1) br base ns first ret).2.position = br.position + 7 := by
  have hs : br.position + 7 ≤ br.size := by
    unfold BytesBuffer.available at h7
    omega
  have hnot : ∀ e g : Nat, br.data (br.position + 1) = e → br.data (br.position + 2) = g →
      isKnownPair e g = true → False := by
    intro e g he hg hk
    rw [he, hg, hk] at hunk
    exact absurd hunk (by simp)
  show (decodeDataBufLoop (fuel + 1) br base ns first ret).1 = ret ∧ _
  unfold decodeDataBufLoop
  rw [if_pos h7]
  rw [readUint8_success br (by omega)]
  dsimp only
  rw [readUint8_success { br with position := br.position + 1 }
    (by show br.position + 1 < br.size; omega)]
  dsimp only
  rw [readUint8_success { br with position := br.position + 1 + 1 }
    (by show br.position + 1 + 1 < br.size; omega)]
  dsimp only
  rw [readInt32_success { br with position := br.position + 1 + 1 + 1 }
    (by show br.position + 1 + 1 + 1 + 4 ≤ br.size; omega)]
  dsimp only
  rw [if_neg (fun h => hnot _ _ rfl rfl (by rw [h.1, h.2]; decide)),
      if_neg (fun h => hnot _ _ rfl rfl (by rw [h.1, h.2]; decide)),
      if_neg (fun h => hnot _ _ rfl rfl (by rw [h.1, h.2]; decide)),
      if_neg (fun h => hnot _ _ rfl rfl (by rw [h.1, h.2]; decide)),
      if_neg (fun h => hnot _ _ rfl rfl (by rw [h.1, h.2]; decide)),
      if_neg (fun h => hnot _ _ rfl rfl (by rw [h.1, h.2]; decide)),
      if_neg (fun h => hnot _ _ rfl rfl (by rw [h.1, h.2]; decide)),
      if_neg (fun h => hnot _ _ rfl rfl (by rw [h.1, h.2]; decide)),
      if_neg (fun h => hnot _ _ rfl rfl (by rw [h.1, h.2]; decide)),
      if_neg (fun h => hnot _ _ rfl rfl (by rw [h.1, h.2]; decide)),
      if_neg (fun h => hnot _ _ rfl rfl (by rw [h.1, h.2]; decide)),
      if_neg (fun h => hnot _ _ rfl rfl (by rw [h.1, h.2]; decide)),
      if_neg (fun h => hnot _ _ rfl rfl (by rw [h.1, h.2]; decide))]
  refine ⟨rfl, ?_⟩
  show br.position + 1 + 1 + 1 + 4 = br.position + 7
  omega

/-- C7 witness: a 7-byte stream with the unknown pair (99, 99) leaves the
already-decoded record list unchanged. -/
theorem decodeDataBuf_unknown_stops_witness :
    (decodeDataBufLoop 1 (BytesBuffer.ofBytes [0, 99, 99, 0, 0, 0, 0]) 0 0 true
      [DataItem.rawData 0 0 0]).1 = [DataItem.rawData 0 0 0] :=
  (decodeDataBuf_unknown_stops 0 (BytesBuffer.ofBytes [0, 99, 99, 0, 0, 0, 0]) 0 0 true
    [DataItem.rawData 0 0 0] (by decide) (by decide)).1

/-- Accumulation invariant of the notification handler: once a nonzero
`respSize S ≤ MAX_RESP_SIZE` is latched and the readiness flag tracks
`respSize ≤ respReceived`, feeding chunks totalling exactly the missing
`S - respReceived` bytes ends with the response ready and the buffer holding
the old prefix followed by the fed bytes. -/
theorem feedChunks_accum (cs : List (List Nat)) : ∀ st : BTState,
    0 < st.respSize → st.respSize ≤ MAX_RESP_SIZE →
    st.respReceived + (cs.flatten).length = st.respSize →
    st.responseReady = decide (st.respSize ≤ st.respReceived) →
    (feedChunks st cs).respSize = st.respSize ∧
    (feedChunks st cs).respReceived = st.respSize ∧
    (feedChunks st cs).responseReady = true ∧
    ∀ i, i < st.respSize →
      (feedChunks st cs).respBuffer i =
        if i < st.respReceived then st.respBuffer i
        else (cs.flatten).getD (i - st.respReceived) 0 := by
  induction cs with
  | nil =>
    intro st h1 h2 h3 h4
    have hrec : st.respReceived = st.respSize := by
      simpa using h3
    refine ⟨rfl, hrec, ?_, ?_⟩
    · show st.responseReady = true
      rw [h4]
      simp [hrec]
    · intro i hi
      rw [if_pos (by omega)]
      rfl
  | cons c cs ih =>
    intro st h1 h2 h3 h4
    have hflat : (((c :: cs).flatten).length : Nat) = c.length + (cs.flatten).length := by
      rw [List.flatten_cons, List.length_append]
    have hcond : ¬ (st.respSize = 0 ∧ 4 ≤ c.length) := fun h => by omega
    have happend : st.respReceived + c.length ≤ MAX_RESP_SIZE := by omega
    have hstep : feedChunks st (c :: cs) = feedChunks (notifyHandler st c) cs := by
      unfold feedChunks
      rw [List.foldl_cons]
    have hmid : notifyHandler st c =
        { respBuffer := writeChunk st.respBuffer st.respReceived c
          respReceived := st.respReceived + c.length
          respSize := st.respSize
          responseReady := decide (st.respSize ≤ st.respReceived + c.length) } := by
      unfold notifyHandler
      rw [if_neg hcond, if_pos happend]
      dsimp only
      by_cases hdone : st.respSize ≤ st.respReceived + c.length
      · rw [if_pos hdone]
        simp [hdone]
      · rw [if_neg hdone]
        have hready : st.responseReady = decide (st.respSize ≤ st.respReceived + c.length) := by
          rw [h4]
          have hlt : ¬ st.respSize ≤ st.respReceived := by omega
          simp [hlt, hdone]
        rw [hready]
    rw [hstep, hmid]
    have hres := ih
      { respBuffer := writeChunk st.respBuffer st.respReceived c
        respReceived := st.respReceived + c.length
        respSize := st.respSize
        responseReady := decide (st.respSize ≤ st.respReceived + c.length) }
      (by exact h1) (by exact h2)
      (by show st.respReceived + c.length + (cs.flatten).length = st.respSize; omega)
      (by rfl)
    refine ⟨hres.1, hres.2.1, hres.2.2.1, ?_⟩
    intro i hi
    rw [hres.2.2.2 i hi]
    show (if i < st.respReceived + c.length then writeChunk st.respBuffer st.respReceived c i
      else (cs.flatten).getD (i - (st.respReceived + c.length)) 0) =
      if i < st.respReceived then st.respBuffer i
      else ((c :: cs).flatten).getD (i - st.respReceived) 0
    rw [List.flatten_cons]
    unfold writeChunk
    by_cases hlo : i < st.respReceived
    · rw [if_pos (by omega), if_pos hlo, if_neg (by omega)]
    · rw [if_neg hlo]
      by_cases hmidr : i < st.respReceived + c.length
      · rw [if_pos hmidr, if_pos (by omega)]
        rw [List.getD_append _ _ _ _ (by omega)]
      · rw [if_neg hmidr]
        rw [List.getD_append_right _ _ _ _ (by omega)]
        congr 1
        omega

/-- C1 counterexample: per the claim the wire length value N already includes
the 4-byte length field, so the frame `[8,0,0,0] ++ [1,2,3,4]` (N = 8 with
N - 4 = 4 body bytes) delivered in one chunk — a partition the claim
explicitly allows — must mark the response ready; the handler instead
computes `_resp_size = N + 4 = 12`, has only 8 bytes, and never sets the
ready flag. -/
theorem frameReassembly_counterexample :
    (feedChunks initBTState [[8, 0, 0, 0, 1, 2, 3, 4]]).responseReady = false := by
  decide

/-- C1 (amended): for every frame made of a 4-byte little-endian prefix whose
decoded value N equals the number of body bytes that FOLLOW it (the prefix
does not count itself) with `N + 4 ≤ MAX_RESP_SIZE`, delivering the frame in
any partition into chunks whose first chunk carries at least the 4 prefix
bytes marks the response ready with the reconstructed buffer holding exactly
the frame. -/
theorem frameReassembly_chunking (c : List Nat) (rest : List (List Nat)) (N : Nat)
    (hfirst : 4 ≤ c.length)
    (hbytes : ∀ x ∈ c, x < 256)
    (hlen : (((c :: rest).flatten).length : Nat) = N + 4)
    (hdecode : leVal4 (c.getD 0 0) (c.getD 1 0) (c.getD 2 0) (c.getD 3 0) = N)
    (hfit : N + 4 ≤ MAX_RESP_SIZE) :
    (feedChunks initBTState (c :: rest)).responseReady = true ∧
    bufferBytes (feedChunks initBTState (c :: rest)).respBuffer (N + 4) =
      (c :: rest).flatten := by
  have hclen : c.length ≤ N + 4 := by
    rw [List.flatten_cons, List.length_append] at hlen
    omega
  have hinit : notifyHandler initBTState c =
      { respBuffer := writeChunk (fun _ => 0) 0 c
        respReceived := c.length
        respSize := N + 4
        responseReady := decide (N + 4 ≤ c.length) } := by
    unfold notifyHandler
    rw [if_pos (show initBTState.respSize = 0 ∧ 4 ≤ c.length from ⟨rfl, hfirst⟩)]
    dsimp only [initBTState]
    rw [lor4_eq _ _ _ _ (getD_lt_256 c 0 hbytes (by omega))
      (getD_lt_256 c 1 hbytes (by omega)) (getD_lt_256 c 2 hbytes (by omega)), hdecode]
    have h32 : (2 : Nat) ^ 32 = 4294967296 := by norm_num
    rw [Nat.mod_eq_of_lt (by rw [h32]; unfold MAX_RESP_SIZE at hfit; omega)]
    rw [if_neg (show ¬ N + 4 > MAX_RESP_SIZE by unfold MAX_RESP_SIZE at hfit ⊢; omega)]
    by_cases hdone : N + 4 ≤ c.length
    · rw [if_pos hdone]
      simp [hdone]
    · rw [if_neg hdone]
      simp [hdone]
  have hstep : feedChunks initBTState (c :: rest) =
      feedChunks (notifyHandler initBTState c) rest := by
    unfold feedChunks
    rw [List.foldl_cons]
  rw [hstep, hinit]
  have hres := feedChunks_accum rest
    { respBuffer := writeChunk (fun _ => 0) 0 c
      respReceived := c.length
      respSize := N + 4
      responseReady := decide (N + 4 ≤ c.length) }
    (by show 0 < N + 4; omega) (by exact hfit)
    (by
      show c.length + (rest.flatten).length = N + 4
      rw [List.flatten_cons, List.length_append] at hlen
      omega)
    (by rfl)
  refine ⟨hres.2.2.1, ?_⟩
  apply List.ext_getElem
  · unfold bufferBytes
    rw [List.length_map, List.length_range, hlen]
  · intro n h1 h2
    unfold bufferBytes at h1 ⊢
    have hn : n < N + 4 := by
      rw [List.length_map, List.length_range] at h1
      exact h1
    rw [List.getElem_map, List.getElem_range]
    rw [hres.2.2.2 n hn]
    show (if n < c.length then writeChunk (fun _ => 0) 0 c n
      else (rest.flatten).getD (n - c.length) 0) = ((c :: rest).flatten)[n]
    have hgetD : ((c :: rest).flatten).getD n 0 = ((c :: rest).flatten)[n] := by
      rw [List.getD_eq_getElem?_getD, List.getElem?_eq_getElem h2, Option.getD_some]
    rw [← hgetD, List.flatten_cons]
    unfold writeChunk
    by_cases hc : n < c.length
    · rw [if_pos hc, if_pos (by omega)]
      rw [List.getD_append _ _ _ _ (by omega), Nat.sub_zero]
    · rw [if_neg hc]
      rw [List.getD_append_right _ _ _ _ (by omega)]

/-- C1 witness: the frame `[4,0,0,0] ++ [9,8,7,6]` (prefix value 4 = body
length) split as 5 + 1 + 2 bytes reassembles to the full frame and marks the
response ready. -/
theorem frameReassembly_chunking_witness :
    (feedChunks initBTState [[4, 0, 0, 0, 9], [8], [7, 6]]).responseReady = true ∧
    bufferBytes (feedChunks initBTState [[4, 0, 0, 0, 9], [8], [7, 6]]).respBuffer (4 + 4) =
      [[4, 0, 0, 0, 9], [8], [7, 6]].flatten :=
  frameReassembly_chunking [4, 0, 0, 0, 9] [[8], [7, 6]] 4 (by decide) (by decide)
    (by decide) (by decide) (by decide)

/-- The quirk block never moves the cursor, never touches the data, and
either keeps the size or truncates exactly one byte. -/
theorem quirkAdjust_bounds (flen : Nat) (r2 : BytesBuffer) :
    (quirkAdjust flen r2).position = r2.position ∧
    (quirkAdjust flen r2).data = r2.data ∧
    ((quirkAdjust flen r2).size = r2.size ∨ (quirkAdjust flen r2).size = r2.size - 1) := by
  unfold quirkAdjust
  by_cases hq : r2.available = (flen + 1) % 2 ^ 32
  · rw [if_pos hq]
    by_cases hz : r2.available = 0
    · rw [if_pos hz]
      exact ⟨rfl, rfl, Or.inl rfl⟩
    · rw [if_neg hz]
      by_cases hb : (r2.peekBytes (r2.available - 1) 1).2.getD 0 0 = 0
      · rw [if_pos hb]
        unfold BytesBuffer.setSize
        refine ⟨?_, rfl, Or.inr ?_⟩
        · show min r2.position (r2.position + r2.available - 1) = r2.position
          unfold BytesBuffer.available at hz ⊢
          omega
        · show r2.position + r2.available - 1 = r2.size - 1
          unfold BytesBuffer.available at hz ⊢
          omega
      · rw [if_neg hb]
        exact ⟨rfl, rfl, Or.inl rfl⟩
  · rw [if_neg hq]
    exact ⟨rfl, rfl, Or.inl rfl⟩

/-- C4 counterexample: a 12-byte response decoding retcode 0 — an invalid
retcode per the claim, which demands the empty buffer — makes readRequest log
and continue, returning the 12-byte cursor (size 12, not empty). -/
theorem readRequest_retcode_counterexample :
    (((BytesBuffer.ofBytes (List.replicate 12 0)).readBytesAdv 4).2.readUint32).2.1 = 0 ∧
    (readRequest (BytesBuffer.ofBytes (List.replicate 12 0))).size = 12 := by
  decide

/-- C4 (amended): for every transport response (cursor at 0), readRequest
returns the empty buffer when the response holds fewer than 8 bytes or the
inner {retcode, length} header cannot be read (size < 12); otherwise —
regardless of the retcode, which is only logged — it returns the cursor
positioned at the start of the data bytes (absolute position 12: 4-byte
echoed command header plus 8-byte inner header), over the same data, with the
size unchanged except possibly for the one-byte quirk truncation. -/
theorem readRequest_behavior (r0 : BytesBuffer) (h0 : r0.position = 0) :
    (r0.size < 12 → readRequest r0 = BytesBuffer.mkEmpty) ∧
    (12 ≤ r0.size →
      (readRequest r0).position = 12 ∧ (readRequest r0).data = r0.data ∧
      ((readRequest r0).size = r0.size ∨ (readRequest r0).size = r0.size - 1)) := by
  have hstrip : (r0.readBytesAdv 4).2 = { r0 with position := min 4 r0.size } := by
    unfold BytesBuffer.readBytesAdv
    dsimp only
    rw [h0]
    rw [show (0 + min 4 (r0.size - 0) : Nat) = min 4 r0.size by omega]
  constructor
  · intro hlt
    unfold readRequest
    rw [hstrip]
    dsimp only
    by_cases h8 : r0.size < 8
    · rw [if_pos h8]
    · rw [if_neg h8]
      have hmin : min 4 r0.size = 4 := by omega
      rw [hmin]
      rw [readUint32_success { r0 with position := 4 } (by show 4 + 4 ≤ r0.size; omega)]
      dsimp only
      rw [readUint32_fail { r0 with position := 4 + 4 } (by show r0.size < 4 + 4 + 4; omega)]
      rw [if_pos (show (true : Bool) = true from rfl)]
      dsimp only
      rw [if_neg (show ¬ (true && false : Bool) = true by decide)]
  · intro hge
    unfold readRequest
    rw [hstrip]
    dsimp only
    rw [if_neg (show ¬ r0.size < 8 by omega)]
    have hmin : min 4 r0.size = 4 := by omega
    rw [hmin]
    rw [readUint32_success { r0 with position := 4 } (by show 4 + 4 ≤ r0.size; omega)]
    dsimp only
    rw [readUint32_success { r0 with position := 4 + 4 } (by show 4 + 4 + 4 ≤ r0.size; omega)]
    rw [if_pos (show (true : Bool) = true from rfl)]
    dsimp only
    rw [if_pos (show (true && true : Bool) = true from rfl)]
    exact ⟨(quirkAdjust_bounds _ _).1, (quirkAdjust_bounds _ _).2.1,
      (quirkAdjust_bounds _ _).2.2⟩

/-- C4 witness: concrete instances of both branches of the amended
behavior. -/
theorem readRequest_behavior_witness :
    readRequest (BytesBuffer.ofBytes [1, 0, 0, 0]) = BytesBuffer.mkEmpty ∧
    (readRequest (BytesBuffer.ofBytes (List.replicate 16 0))).position = 12 := by
  refine ⟨?_, ?_⟩
  · exact (readRequest_behavior (BytesBuffer.ofBytes [1, 0, 0, 0]) (by decide)).1 (by decide)
  · exact ((readRequest_behavior (BytesBuffer.ofBytes (List.replicate 16 0))
      (by decide)).2 (by decide)).1

/-- C5 (code_bug): a virtual-string response whose inner header declares
length L = 3 with exactly L + 1 = 4 bytes remaining and a final remaining
byte of 0x00 must, per spec and per the code's own "truncate last byte"
intent, be truncated to leave 3 bytes; the code instead peeks the byte at
ABSOLUTE offset `remaining - 1 = 3` (a position-relative offset passed to the
absolute-offset peekBytes), finds the echoed-header byte 0x80 ≠ 0, and leaves
all 4 bytes in place. -/
theorem readRequest_quirk_checks_wrong_byte :
    (BytesBuffer.ofBytes
      [7, 0, 0, 128, 1, 0, 0, 0, 3, 0, 0, 0, 170, 187, 204, 0]).data 15 = 0 ∧
    (readRequest (BytesBuffer.ofBytes
      [7, 0, 0, 128, 1, 0, 0, 0, 3, 0, 0, 0, 170, 187, 204, 0])).available = 4 := by
  decide

end RadiaCodeProof
